import Mathlib

/-!
Verification development for the connors-datafetch repository.

This file gives a shallow embedding, in Lean 4, of the data-source
abstraction and normalization layer of the repository: the timespan
resolver (`connors_downloader/core/timespan.py`), the datasource registry
(`connors_downloader/core/registry.py`), the five provider adapters
(yfinance, polygon, finnhub, fmp, ccxt), and the download orchestrator
(`connors_downloader/services/download_service.py`).  Pure Python
functions become Lean functions; HTTP traffic is modelled by passing the
upstream behaviour as an explicit function argument; exceptions become
`Except String`; `datetime.now()` becomes an explicit `today` parameter;
machine-level floats are modelled by `ℚ` (no claim touches float
rounding).  Theorems about the claims follow at the end of the file.
-/

namespace Connors

/-- Decidable equality for `Except`, used to state concrete evaluations. -/
instance {ε α : Type} [DecidableEq ε] [DecidableEq α] : DecidableEq (Except ε α) :=
  fun a b =>
    match a, b with
    | .ok x, .ok y =>
      if h : x = y then .isTrue (by rw [h]) else .isFalse (fun hc => by cases hc; exact h rfl)
    | .error x, .error y =>
      if h : x = y then .isTrue (by rw [h]) else .isFalse (fun hc => by cases hc; exact h rfl)
    | .ok _, .error _ => .isFalse (fun hc => by cases hc)
    | .error _, .ok _ => .isFalse (fun hc => by cases hc)

/-- Single-quote character as a string (used in several Python error
messages built with f-strings). -/
def sq : String := String.singleton (Char.ofNat 39)

/-- Lower-casing of a string, `str.lower()` on ASCII data
(`df.columns.str.lower()` in the adapters).  Implemented over the
character list so that it evaluates by kernel reduction. -/
def lowerStr (s : String) : String := String.mk (s.data.map Char.toLower)

/-- `s[:n]` truncation (used for HTTP error bodies). -/
def takeStr (s : String) (n : Nat) : String := String.mk (s.data.take n)

/-- Split a character list at every occurrence of `c` (model of
`str.split`, keeping empty pieces). -/
def splitOnCharList (c : Char) : List Char → List (List Char)
  | [] => [[]]
  | x :: xs =>
    match splitOnCharList c xs with
    | [] => [[]]
    | g :: gs => if x = c then [] :: g :: gs else (x :: g) :: gs

/-- Split a string on a separator character. -/
def splitOnChar (c : Char) (s : String) : List String :=
  (splitOnCharList c s.data).map String.mk

/-- Parse a non-empty all-digit character list as a `Nat` (model of
`int(s)` on the digit groups `strptime` matched). -/
def digitsToNat? (l : List Char) : Option Nat :=
  if l ≠ [] && l.all Char.isDigit then
    some (l.foldl (fun acc c => acc * 10 + (c.toNat - 48)) 0)
  else none

/-- Left-pad a numeral with zeros, as `strftime` does for `%Y`/`%m`/`%d`. -/
def padNum (w : Nat) (n : Nat) : String :=
  let s := toString n
  String.mk (List.replicate (w - s.length) '0') ++ s

/-! ## Calendar dates

Python's `datetime.date`/`datetime.datetime` values, restricted to the
calendar-day granularity the repository uses.  Day arithmetic
(`timedelta(days=n)`) is modelled through a proleptic-Gregorian
day-number conversion. -/

structure Date where
  year : Nat
  month : Nat
  day : Nat
deriving DecidableEq, Repr

/-- Gregorian leap-year test (`calendar.isleap`). -/
def isLeap (y : Nat) : Bool := (y % 4 = 0 && y % 100 ≠ 0) || (y % 400 = 0)

/-- Days in a month of a given year. -/
def daysInMonth (y m : Nat) : Nat :=
  if m = 1 then 31 else if m = 2 then (if isLeap y then 29 else 28)
  else if m = 3 then 31 else if m = 4 then 30 else if m = 5 then 31
  else if m = 6 then 30 else if m = 7 then 31 else if m = 8 then 31
  else if m = 9 then 30 else if m = 10 then 31 else if m = 11 then 30
  else if m = 12 then 31 else 0

/-- A valid `datetime.date`: year in `1..9999`, month in `1..12`, day fits
the month. -/
def dateValid (d : Date) : Bool :=
  1 ≤ d.year && d.year ≤ 9999 && 1 ≤ d.month && d.month ≤ 12 &&
  1 ≤ d.day && d.day ≤ daysInMonth d.year d.month

/-- Serial day number of a Gregorian date (days since 1970-01-01, may be
negative); the standard civil-from-days construction. -/
def toDays (dt : Date) : Int :=
  let y : Int := if dt.month ≤ 2 then (dt.year : Int) - 1 else (dt.year : Int)
  let era : Int := Int.fdiv y 400
  let yoe : Int := y - era * 400
  let mp : Int := if dt.month > 2 then (dt.month : Int) - 3 else (dt.month : Int) + 9
  let doy : Int := Int.fdiv (153 * mp + 2) 5 + (dt.day : Int) - 1
  let doe : Int := yoe * 365 + Int.fdiv yoe 4 - Int.fdiv yoe 100 + doy
  era * 146097 + doe - 719468

/-- Inverse of `toDays`: the Gregorian date of a serial day number. -/
def ofDays (z0 : Int) : Date :=
  let z : Int := z0 + 719468
  let era : Int := Int.fdiv z 146097
  let doe : Int := z - era * 146097
  let yoe : Int := Int.fdiv (doe - Int.fdiv doe 1460 + Int.fdiv doe 36524 - Int.fdiv doe 146096) 365
  let y : Int := yoe + era * 400
  let doy : Int := doe - (365 * yoe + Int.fdiv yoe 4 - Int.fdiv yoe 100)
  let mp : Int := Int.fdiv (5 * doy + 2) 153
  let d : Int := doy - Int.fdiv (153 * mp + 2) 5 + 1
  let m : Int := if mp < 10 then mp + 3 else mp - 9
  ⟨(if m ≤ 2 then y + 1 else y).toNat, m.toNat, d.toNat⟩

/-- `date.strftime("%Y-%m-%d")`. -/
def formatDate (d : Date) : String :=
  padNum 4 d.year ++ "-" ++ padNum 2 d.month ++ "-" ++ padNum 2 d.day

/-- `datetime.strptime(s, "%Y-%m-%d")`: `%Y` is exactly four digits,
`%m` and `%d` are one or two digits, and the resulting triple must be a
valid calendar date; anything else raises, modelled as `none`. -/
def parseDateStr (s : String) : Option Date :=
  match splitOnCharList '-' s.data with
  | [ys, ms, ds] =>
    if ys.length = 4 && (1 ≤ ms.length && ms.length ≤ 2) &&
       (1 ≤ ds.length && ds.length ≤ 2) then
      match digitsToNat? ys, digitsToNat? ms, digitsToNat? ds with
      | some y, some m, some d =>
        if dateValid ⟨y, m, d⟩ then some ⟨y, m, d⟩ else none
      | _, _, _ => none
    else none
  | _ => none

/-- Python truthiness of an optional string argument (`if start_date and
end_date:` — `None` and `""` are both falsy). -/
def truthy (o : Option String) : Bool :=
  match o with
  | none => false
  | some s => s ≠ ""

/-! ## `TimespanCalculator` (`connors_downloader/core/timespan.py`) -/

namespace TimespanCalculator

/-- Value of an entry of `PREDEFINED_TIMESPANS`: a fixed `timedelta`
measured in days (`weeks=k` is `7*k` days), or the `"year_to_date"`
sentinel. -/
inductive TsCfg
  | delta (days : Nat)
  | yearToDate
deriving DecidableEq, Repr

/-- `PREDEFINED_TIMESPANS`, in source (dict-insertion) order. -/
def PREDEFINED_TIMESPANS : List (String × TsCfg) :=
  [("1D", .delta 1), ("5D", .delta 5), ("10D", .delta 10),
   ("1W", .delta 7), ("2W", .delta 14),
   ("1M", .delta 30), ("3M", .delta 90), ("6M", .delta 180),
   ("YTD", .yearToDate),
   ("1Y", .delta 365), ("2Y", .delta 730), ("3Y", .delta 1095),
   ("5Y", .delta 1825)]

/-- `', '.join(PREDEFINED_TIMESPANS.keys())`. -/
def timespanKeys : String :=
  String.intercalate ", " (PREDEFINED_TIMESPANS.map (·.1))

/-- `_validate_date_format`: raises `ValueError` on a string `strptime`
rejects. -/
def validate_date_format (s : String) : Except String Unit :=
  if (parseDateStr s).isSome then .ok ()
  else .error ("Invalid date format " ++ sq ++ s ++ sq ++
               ". Expected YYYY-MM-DD format.")

/-- `TimespanCalculator.calculate_dates`.  `today` stands for
`datetime.now()`; `end_date_override` is the injectable end date. -/
def calculate_dates (timespan start_date end_date : Option String)
    (end_date_override : Option Date) (today : Date) :
    Except String (String × String) := do
  let end_dt := end_date_override.getD today
  if truthy start_date && truthy end_date then
    let s := start_date.getD ""
    let e := end_date.getD ""
    validate_date_format s
    validate_date_format e
    return (s, e)
  else if truthy start_date then
    let s := start_date.getD ""
    validate_date_format s
    return (s, formatDate end_dt)
  else if truthy end_date then
    let e := end_date.getD ""
    validate_date_format e
    match parseDateStr e with
    | some ed => return (formatDate (ofDays (toDays ed - 365)), e)
    | none => .error "unreachable"
  else
    let ts := if truthy timespan then timespan.getD "" else "1Y"
    match PREDEFINED_TIMESPANS.find? (fun p => p.1 == ts) with
    | none =>
      .error ("Invalid timespan " ++ sq ++ ts ++ sq ++
              ". Available options: " ++ timespanKeys)
    | some (_, .yearToDate) =>
      return (formatDate ⟨end_dt.year, 1, 1⟩, formatDate end_dt)
    | some (_, .delta n) =>
      return (formatDate (ofDays (toDays end_dt - (n : Int))), formatDate end_dt)

end TimespanCalculator

/-! ## `DataSourceRegistry` (`connors_downloader/core/registry.py`)

The registry stores a Python dict mapping names to datasource classes.
We model the dict as an association list with dict-assignment semantics
(assigning to an existing key replaces its value in place, otherwise the
key is appended), and the stored class abstractly by a type parameter. -/

/-- Python dict assignment `d[name] = cls`. -/
def dictInsert {α : Type} : List (String × α) → String → α → List (String × α)
  | [], n, v => [(n, v)]
  | (k, w) :: rest, n, v =>
    if k = n then (k, v) :: rest else (k, w) :: dictInsert rest n v

namespace DataSourceRegistry

/-- `register_datasource(name)` applied (as a decorator) to a class:
`self._datasources[name] = cls`. -/
def register_datasource {α : Type} (r : List (String × α)) (name : String)
    (cls : α) : List (String × α) :=
  dictInsert r name cls

/-- `list_datasources`: `list(self._datasources.keys())`. -/
def list_datasources {α : Type} (r : List (String × α)) : List String :=
  r.map (·.1)

/-- `f"{list(keys)}"` as Python prints a list of strings. -/
def availableNames (r : List String) : String :=
  "[" ++ String.intercalate ", " (r.map (fun n => sq ++ n ++ sq)) ++ "]"

/-- `create_datasource(name, **kwargs)`: looks the class up and
instantiates it; instantiation itself is abstract, so the class is
returned.  An unregistered name raises `ValueError`. -/
def create_datasource {α : Type} (r : List (String × α)) (name : String) :
    Except String α :=
  match r.find? (fun p => p.1 == name) with
  | some p => .ok p.2
  | none =>
    .error ("Datasource " ++ sq ++ name ++ sq ++ " not found. Available: " ++
            availableNames (list_datasources r))

end DataSourceRegistry

/-! ## Normalized frames and candles

A pandas `DataFrame` as the adapters use it: an ordered list of column
names, the name of the index, and rows carrying the integer index value
(a serial day number or an epoch timestamp) together with the cells.
Cell values are modelled by `ℚ`. -/

structure Frame where
  indexName : String
  cols : List String
  rows : List (Int × List ℚ)
deriving DecidableEq, Repr

/-- The normalized column list every adapter must produce. -/
def stdCols : List String := ["open", "high", "low", "close", "volume"]

/-- One OHLCV candle of the ccxt adapter (`[timestamp, open, high, low,
close, volume]`, timestamp in milliseconds). -/
structure Candle where
  ts : Int
  o : ℚ
  h : ℚ
  l : ℚ
  c : ℚ
  v : ℚ
deriving DecidableEq, Repr

/-! ## Polygon adapter (`connors_downloader/datasources/polygon.py`)

The upstream HTTP exchange is modelled by a function from the request the
adapter builds to the (already JSON-decoded) response. -/

structure PolyBar where
  o : ℚ
  h : ℚ
  l : ℚ
  c : ℚ
  v : ℚ
  t : Int
deriving DecidableEq, Repr

structure PolyReq where
  symbol : String
  multiplier : Nat
  timespan : String
  start : String
  stop : String
  adjusted : String
  sort : String
  limit : String
  apiKey : String
deriving DecidableEq, Repr

structure PolyResp where
  status : Nat
  text : String
  results : List PolyBar
deriving DecidableEq, Repr

namespace PolygonDataSource

/-- `interval_map.get(interval, ("day", 1))`: the daily/weekly/monthly
codes map to range codes, and ANY other interval silently falls back to
`("day", 1)`. -/
def intervalMap (interval : String) : String × Nat :=
  if interval = "1d" then ("day", 1)
  else if interval = "1wk" then ("week", 1)
  else if interval = "1mo" then ("month", 1)
  else ("day", 1)

/-- Midnight-normalization of a millisecond timestamp
(`df.index.normalize()` for `1d`). -/
def normalizeMs (t : Int) : Int := 86400000 * Int.fdiv t 86400000

/-- `PolygonDataSource.fetch`. -/
def fetch (http : PolyReq → PolyResp) (api_key symbol start stop interval : String) :
    Except String Frame :=
  let tm := intervalMap interval
  match parseDateStr start, parseDateStr stop with
  | some ds, some de =>
    let req : PolyReq :=
      { symbol := symbol, multiplier := tm.2, timespan := tm.1,
        start := formatDate ds, stop := formatDate de,
        adjusted := "true", sort := "asc", limit := "50000", apiKey := api_key }
    let resp := http req
    if resp.status ≠ 200 then
      .error ("polygon HTTP " ++ toString resp.status ++ ": " ++ takeStr resp.text 200)
    else if resp.results.isEmpty then
      .error "polygon returned no results"
    else
      .ok { indexName := "date", cols := stdCols,
            rows := resp.results.map (fun b =>
              ((if interval = "1d" then normalizeMs b.t else b.t),
               [b.o, b.h, b.l, b.c, b.v])) }
  | _, _ => .error "Invalid date passed to pd.to_datetime"

end PolygonDataSource

/-! ## Finnhub adapter (`connors_downloader/datasources/finnhub.py`) -/

structure FinnReq where
  symbol : String
  resolution : String
  fromTs : Int
  toTs : Int
  token : String
deriving DecidableEq, Repr

structure FinnResp where
  status : Nat
  text : String
  s : String
  o : List ℚ
  h : List ℚ
  l : List ℚ
  c : List ℚ
  v : List ℚ
  t : List Int
deriving DecidableEq, Repr

namespace FinnhubDataSource

/-- `interval_map.get(interval, "D")`: daily/weekly/monthly map to
Finnhub resolutions; any other interval silently falls back to `"D"`. -/
def intervalMap (interval : String) : String :=
  if interval = "1d" then "D"
  else if interval = "1wk" then "W"
  else if interval = "1mo" then "M"
  else "D"

/-- Seconds-precision midnight normalization (`df.index.normalize()`). -/
def normalizeSec (t : Int) : Int := 86400 * Int.fdiv t 86400

/-- `FinnhubDataSource.fetch`.  Building the frame from the per-field
arrays requires them to be of equal length (pandas raises otherwise). -/
def fetch (http : FinnReq → FinnResp) (api_key symbol start stop interval : String) :
    Except String Frame :=
  let resolution := intervalMap interval
  match parseDateStr start, parseDateStr stop with
  | some ds, some de =>
    let req : FinnReq :=
      { symbol := symbol, resolution := resolution,
        fromTs := toDays ds * 86400, toTs := toDays de * 86400, token := api_key }
    let resp := http req
    if resp.status ≠ 200 then
      .error ("Finnhub HTTP " ++ toString resp.status ++ ": " ++ takeStr resp.text 200)
    else if resp.s = "no_data" then
      .error "Finnhub returned no data"
    else if resp.c.isEmpty then
      .error "Finnhub returned no results"
    else if resp.o.length = resp.c.length && resp.h.length = resp.c.length &&
            resp.l.length = resp.c.length && resp.v.length = resp.c.length &&
            resp.t.length = resp.c.length then
      .ok { indexName := "date", cols := stdCols,
            rows := (resp.t.zip (((resp.o.zip resp.h).zip (resp.l.zip resp.c)).zip resp.v)).map
              (fun p =>
                ((if interval = "1d" then normalizeSec p.1 else p.1),
                 [p.2.1.1.1, p.2.1.1.2, p.2.1.2.1, p.2.1.2.2, p.2.2])) }
    else .error "All arrays must be of the same length"
  | _, _ => .error "Invalid date passed to pd.to_datetime"

end FinnhubDataSource

/-! ## FinancialModelingPrep adapter (`connors_datafetch/datasources/fmp.py`) -/

structure FmpBar where
  date : String
  o : ℚ
  h : ℚ
  l : ℚ
  c : ℚ
  v : ℚ
deriving DecidableEq, Repr

/-- The two FMP endpoints the adapter hits: `historical-price-full`
for daily data and `historical-chart/{timeseries}` for weekly/monthly. -/
inductive FmpReq
  | full (symbol from_ to_ apikey : String)
  | chart (timeseries symbol from_ to_ apikey : String)
deriving DecidableEq, Repr

/-- Decoded FMP response; `results` is the bar list the adapter extracts
(the `historical` key for the full endpoint, the direct array for the
chart endpoint). -/
structure FmpResp where
  status : Nat
  text : String
  results : List FmpBar
deriving DecidableEq, Repr

/-- Row ordering by index value, used for `df.sort_index()`. -/
def rowLe (a b : Int × List ℚ) : Prop := a.1 ≤ b.1

instance : DecidableRel rowLe := fun a b => inferInstanceAs (Decidable (a.1 ≤ b.1))

instance : IsTotal (Int × List ℚ) rowLe := ⟨fun a b => Int.le_total a.1 b.1⟩

instance : IsTrans (Int × List ℚ) rowLe := ⟨fun _ _ _ h₁ h₂ => le_trans h₁ h₂⟩

namespace FinancialModelingPrepDataSource

/-- `FinancialModelingPrepDataSource.fetch`.  The interval dispatch (and
the `Unsupported interval` raise) comes before any date handling, as in
the source. -/
def fetch (http : FmpReq → FmpResp) (api_key symbol start stop interval : String) :
    Except String Frame := do
  if interval = "1d" || interval = "1wk" || interval = "1mo" then
    match parseDateStr start, parseDateStr stop with
    | some ds, some de =>
    let req : FmpReq :=
      if interval = "1d" then
        .full symbol (formatDate ds) (formatDate de) api_key
      else if interval = "1wk" then
        .chart "1week" symbol (formatDate ds) (formatDate de) api_key
      else
        .chart "1month" symbol (formatDate ds) (formatDate de) api_key
    let resp := http req
    if resp.status ≠ 200 then
      .error ("FMP HTTP " ++ toString resp.status ++ ": " ++ takeStr resp.text 200)
    else if resp.results.isEmpty then
      .error "FMP returned no results"
    else
      match resp.results.mapM (fun b => parseDateStr b.date) with
      | none => .error "Invalid date passed to pd.to_datetime"
      | some idx =>
        .ok { indexName := "date", cols := stdCols,
              rows := List.insertionSort rowLe
                ((idx.map toDays).zip
                  (resp.results.map (fun b => [b.o, b.h, b.l, b.c, b.v]))) }
    | _, _ => .error "Invalid date passed to pd.to_datetime"
  else
    .error ("Unsupported interval: " ++ interval ++ ". Use " ++ sq ++ "1d" ++ sq ++
            ", " ++ sq ++ "1wk" ++ sq ++ ", or " ++ sq ++ "1mo" ++ sq ++ ".")

end FinancialModelingPrepDataSource

/-! ## yfinance adapter (`connors_datafetch/datasources/yfinance.py`)

`yf.download` is an external SDK call; it is modelled as a function from
the request to the returned frame.  The adapter only lower-cases the
column names and (when truthy) the index name — it neither selects nor
reorders columns. -/

structure YfReq where
  tickers : String
  start : String
  stop : String
  interval : String
deriving DecidableEq, Repr

namespace YfinanceDataSource

/-- `YfinanceDataSource.fetch`. -/
def fetch (download : YfReq → Frame) (symbol start stop interval : String) : Frame :=
  let df := download ⟨symbol, start, stop, interval⟩
  { df with
    cols := df.cols.map lowerStr,
    indexName := if df.indexName ≠ "" then lowerStr df.indexName else df.indexName }

end YfinanceDataSource

/-! ## CCXT adapter (`connors_downloader/datasources/ccxt.py`)

The exchange client is modelled by the (possibly failing) page it
returns for each `fetch_ohlcv` call, plus its optional `timeframes`
metadata.  The pagination loop advances a millisecond `since` cursor to
the last candle timestamp plus one and is capped at 1000 iterations. -/

/-- Outcome of one `exchange.fetch_ohlcv` call. -/
inductive CcxtPage
  | ok (candles : List Candle)
  | networkError (msg : String)
  | exchangeError (msg : String)
  | otherError (msg : String)
deriving DecidableEq, Repr

/-- The ccxt exchange client: `timeframes` metadata when the exchange
exposes it (`hasattr`), and the page returned for a
`fetch_ohlcv(symbol, timeframe, since, limit)` call. -/
structure CcxtExchange where
  timeframes : Option (List String)
  fetchOhlcv : String → String → Int → Nat → CcxtPage

/-- Timestamp of the last candle of a page (`ohlcv[-1][0]`); the empty
case is never used. -/
def lastTsD (l : List Candle) : Int :=
  match l.getLast? with
  | some c => c.ts
  | none => 0

/-- Code-point lexicographic order on character lists (Python `<` on
strings). -/
def charListLe : List Char → List Char → Bool
  | [], _ => true
  | _ :: _, [] => false
  | x :: xs, y :: ys => if x = y then charListLe xs ys else decide (x < y)

/-- Ordering used by Python `sorted` on strings. -/
def strLe (a b : String) : Prop := charListLe a.data b.data = true

instance : DecidableRel strLe := fun a b =>
  inferInstanceAs (Decidable (charListLe a.data b.data = true))

/-- Python `sorted` on a list of strings. -/
def sortedStrings (l : List String) : List String := List.insertionSort strLe l

namespace CCXTDataSource

/-- `INTERVAL_MAP` (CLI format → CCXT format), in source order. -/
def INTERVAL_MAP : List (String × String) :=
  [("1m", "1m"), ("5m", "5m"), ("15m", "15m"), ("30m", "30m"),
   ("1h", "1h"), ("2h", "2h"), ("4h", "4h"), ("6h", "6h"), ("12h", "12h"),
   ("1d", "1d"), ("1w", "1w"), ("1M", "1M")]

/-- `", ".join(sorted(INTERVAL_MAP.keys()))`. -/
def supportedJoined : String :=
  String.intercalate ", " (sortedStrings (INTERVAL_MAP.map (·.1)))

/-- The `RuntimeError` raised when the 1000-iteration safety cap is hit. -/
def maxIterMsg : String :=
  "Exceeded maximum iterations (1000) while fetching data. " ++
  "This might indicate an issue with the date range or exchange response."

/-- The paginated fetch loop.  `iterLeft` is `max_iterations -
iteration`; the loop body: fetch a page at the current cursor, stop on an
empty page, otherwise append it, advance the cursor to the last
timestamp + 1 ms and stop if it reached the target end; leaving the loop
with `iteration >= max_iterations` raises the exhaustion error. -/
def go (ex : CcxtExchange) (symbol timeframe exchange_id : String) (untilMs : Int) :
    Nat → Int → List Candle → Except String (List Candle)
  | iterLeft, current_since, acc =>
    if current_since < untilMs then
      match iterLeft with
      | 0 => .error maxIterMsg
      | n + 1 =>
        match ex.fetchOhlcv symbol timeframe current_since 1000 with
        | .networkError m =>
          .error ("Network error fetching data from " ++ exchange_id ++ ": " ++ m)
        | .exchangeError m =>
          .error ("Exchange error from " ++ exchange_id ++ ": " ++ m ++
                  ". Check if symbol " ++ sq ++ symbol ++ sq ++
                  " is valid for this exchange.")
        | .otherError m =>
          .error ("Unexpected error fetching data from " ++ exchange_id ++ ": " ++ m)
        | .ok [] => .ok acc
        | .ok (c :: cs) =>
          let acc' := acc ++ (c :: cs)
          let cur' := lastTsD (c :: cs) + 1
          if cur' ≥ untilMs then .ok acc'
          else go ex symbol timeframe exchange_id untilMs n cur' acc'
    else .ok acc

/-- Candle range filter `(df.index >= start_dt_utc) & (df.index <=
end_dt_utc)` — both bounds inclusive. -/
def inRangeB (a b : Int) (c : Candle) : Bool :=
  decide (a ≤ c.ts) && decide (c.ts ≤ b)

/-- Sorting key of `df.sort_index()` on the candle list. -/
def tsLe (x y : Candle) : Prop := x.ts ≤ y.ts

instance : DecidableRel tsLe := fun x y => inferInstanceAs (Decidable (x.ts ≤ y.ts))

instance : IsTotal Candle tsLe := ⟨fun a b => Int.le_total a.ts b.ts⟩

instance : IsTrans Candle tsLe := ⟨fun _ _ _ h₁ h₂ => le_trans h₁ h₂⟩

/-- `df[~df.index.duplicated(keep="first")]`: drop every row whose
timestamp was already seen earlier in the list. -/
def dedupFirstAux (seen : List Int) : List Candle → List Candle
  | [] => []
  | c :: cs =>
    if c.ts ∈ seen then dedupFirstAux seen cs
    else c :: dedupFirstAux (c.ts :: seen) cs

/-- The post-fetch normalization: filter to `[start, end]` inclusive,
sort ascending by timestamp, drop duplicate timestamps keeping the
first. -/
def normalize (a b : Int) (acc : List Candle) : List Candle :=
  dedupFirstAux [] (List.insertionSort tsLe (acc.filter (inRangeB a b)))

/-- A candle as a frame row. -/
def candleRow (c : Candle) : Int × List ℚ := (c.ts, [c.o, c.h, c.l, c.c, c.v])

/-- `CCXTDataSource.fetch`. -/
def fetch (ex : CcxtExchange) (exchange_id symbol start stop interval : String) :
    Except String Frame := do
  match INTERVAL_MAP.find? (fun p => p.1 == interval) with
  | none =>
    .error ("Interval " ++ sq ++ interval ++ sq ++
            " not supported for CCXT datasource. Supported intervals: " ++
            supportedJoined)
  | some (_, timeframe) =>
    (match ex.timeframes with
     | some tfs =>
       if tfs.contains timeframe then Except.ok ()
       else .error ("Timeframe " ++ sq ++ timeframe ++ sq ++ " not supported by " ++
                    exchange_id ++ ". Available timeframes: " ++
                    String.intercalate ", " (sortedStrings tfs))
     | none => Except.ok ())
    match parseDateStr start, parseDateStr stop with
    | some ds, some de =>
      let sinceMs := toDays ds * 86400000
      let untilMs := toDays de * 86400000
      let acc ← go ex symbol timeframe exchange_id untilMs 1000 sinceMs []
      if acc.isEmpty then
        .error ("No data found for " ++ symbol ++ " on " ++ exchange_id ++
                " between " ++ start ++ " and " ++ stop)
      else
        .ok { indexName := "date", cols := stdCols,
              rows := (normalize sinceMs untilMs acc).map candleRow }
    | _, _ => .error "Invalid date passed to pd.to_datetime"

end CCXTDataSource

/-! ## Market configuration (`connors_downloader/config/manager.py`) -/

structure DownloadConfig where
  name : String
  yf_ticker_suffix : String
  market : String
deriving DecidableEq, Repr

namespace DownloadConfigManager

/-- `self.download_configs`, in source order. -/
def download_configs : List (String × DownloadConfig) :=
  [("brazil", ⟨"brazil", ".SA", "brazil"⟩),
   ("australia", ⟨"australia", ".AX", "australia"⟩),
   ("america", ⟨"america", "", "america"⟩),
   ("canada", ⟨"canada", ".TO", "canada"⟩),
   ("uk", ⟨"uk", ".L", "uk"⟩),
   ("germany", ⟨"germany", ".DE", "germany"⟩),
   ("japan", ⟨"japan", ".T", "japan"⟩),
   ("hong_kong", ⟨"hong_kong", ".HK", "hong_kong"⟩),
   ("india", ⟨"india", ".NS", "india"⟩),
   ("crypto", ⟨"crypto", "", "crypto"⟩)]

/-- `get_market_config`. -/
def get_market_config (config_name : String) : Except String DownloadConfig :=
  match download_configs.find? (fun p => p.1 == config_name) with
  | some p => .ok p.2
  | none =>
    .error ("Unknown download config: " ++ config_name ++ ". Available: " ++
            DataSourceRegistry.availableNames (download_configs.map (·.1)))

/-- `str.endswith`. -/
def endsWithStr (s suffix : String) : Bool :=
  List.isPrefixOf suffix.data.reverse s.data.reverse

/-- `get_ticker_with_suffix`. -/
def get_ticker_with_suffix (ticker config_name : String) : Except String String := do
  let config ← get_market_config config_name
  if config.yf_ticker_suffix ≠ "" && !endsWithStr ticker config.yf_ticker_suffix then
    return ticker ++ config.yf_ticker_suffix
  else
    return ticker

end DownloadConfigManager

/-! ## Download orchestrator
(`connors_downloader/services/download_service.py`) -/

/-- Result dict of `DownloadService.validate_ticker`. -/
structure TickerValidation where
  valid : Bool
  error : Option String
deriving DecidableEq, Repr

/-- `DownloadResult`. -/
structure DownloadResult where
  ticker : String
  datasource : String
  market : Option String
  data : Option Frame
  file_path : Option String
  start_date : String
  end_date : String
  interval : String
  success : Bool
  error : Option String
deriving DecidableEq, Repr

/-- The `"valid"` part of `preview_download`'s result dict. -/
structure PreviewInfo where
  ticker : String
  final_ticker : String
  datasource : String
  start : String
  stop : String
  interval : String
  market_info : Option (String × String)
  output_path : String
deriving DecidableEq, Repr

/-- `preview_download` returns either `{"valid": False, "error": e}` or the
full parameter dict. -/
inductive Preview
  | invalid (error : String)
  | valid (info : PreviewInfo)
deriving DecidableEq, Repr

/-- A constructed datasource instance, reduced to its `fetch` capability:
`fetch(symbol, start, end, interval)` returning a frame or raising. -/
def Adapter : Type := String → String → String → String → Except String Frame

namespace DownloadService

/-- Modelled from the spec: `BaseService._validate_required_params`
(`services/base.py` is not part of the sources).  Per §4.4/§7 a missing
required argument is a local invalid-input failure reported with the
offending names, before any network call. -/
def validate_required_params (params : List (String × Option String)) :
    Except String Unit :=
  let missing := params.filter (fun p => !truthy p.2)
  if missing.isEmpty then .ok ()
  else .error ("Missing required parameters: " ++
               String.intercalate ", " (missing.map (·.1)))

/-- `DownloadService.validate_ticker`. -/
def validate_ticker (ticker : String) : TickerValidation :=
  if ticker = "" then ⟨false, some "Ticker cannot be empty"⟩
  else if !(let stripped := ticker.data.filter (fun c => c ≠ '.' && c ≠ '-' && c ≠ '/')
            stripped ≠ [] && stripped.all Char.isAlphanum) then
    ⟨false, some "Ticker contains invalid characters"⟩
  else if ticker.length > 20 then ⟨false, some "Ticker too long (max 20 characters)"⟩
  else ⟨true, none⟩

/-- `get_default_dates`: one year back as `date(year-1, month, day)`,
falling back to a fixed pair when that raises (Feb 29). -/
def get_default_dates (today : Date) : String × String :=
  if dateValid ⟨today.year - 1, today.month, today.day⟩ then
    (formatDate ⟨today.year - 1, today.month, today.day⟩, formatDate today)
  else ("2024-01-01", "2024-12-31")

/-- `calculate_dates_from_timeframe`: delegates to the resolver and—on
ANY error—silently falls back to the default dates. -/
def calculate_dates_from_timeframe (today : Date)
    (timeframe start_date end_date : Option String) : String × String :=
  match TimespanCalculator.calculate_dates timeframe start_date end_date none today with
  | .ok r => r
  | .error _ => get_default_dates today

/-- `_timeframe_to_filename`. -/
def timeframe_to_filename (t : String) : String :=
  let m : List (String × String) :=
    [("1D", "1day"), ("2D", "2days"), ("3D", "3days"), ("5D", "5days"),
     ("1W", "1week"), ("2W", "2weeks"), ("3W", "3weeks"),
     ("1M", "1month"), ("2M", "2months"), ("3M", "3months"), ("6M", "6months"),
     ("1Y", "1year"), ("2Y", "2years"), ("3Y", "3years"), ("5Y", "5years"),
     ("YTD", "ytd"), ("MAX", "max")]
  match m.find? (fun p => p.1 == t) with
  | some p => p.2
  | none => lowerStr t

/-- `_get_output_path_with_format` (string part; directory creation is an
out-of-scope side effect).  `appHome` stands for `_get_app_home()`. -/
def get_output_path_with_format (appHome ticker datasource start stop interval : String)
    (market : Option String) (output_format : String) (exchange : Option String)
    (include_datasource : Bool) (timeframe : Option String) : String :=
  let safe_ticker := String.mk (ticker.data.map
    (fun c => if c = '/' || c = '\\' || c = ':' then '-' else c))
  let extension := lowerStr output_format
  let period_str :=
    if truthy timeframe then timeframe_to_filename (timeframe.getD "")
    else start ++ "_" ++ stop
  let filename :=
    if datasource = "ccxt" && truthy exchange then
      if include_datasource then
        safe_ticker ++ "_" ++ exchange.getD "" ++ "_" ++ datasource ++ "_" ++
          period_str ++ "_" ++ interval ++ "." ++ extension
      else
        safe_ticker ++ "_" ++ exchange.getD "" ++ "_" ++ period_str ++ "_" ++
          interval ++ "." ++ extension
    else if truthy market && market.getD "" ≠ "america" then
      if include_datasource then
        safe_ticker ++ "_" ++ market.getD "" ++ "_" ++ datasource ++ "_" ++
          period_str ++ "_" ++ interval ++ "." ++ extension
      else
        safe_ticker ++ "_" ++ market.getD "" ++ "_" ++ period_str ++ "_" ++
          interval ++ "." ++ extension
    else
      if include_datasource then
        safe_ticker ++ "_" ++ datasource ++ "_" ++ period_str ++ "_" ++
          interval ++ "." ++ extension
      else
        safe_ticker ++ "_" ++ period_str ++ "_" ++ interval ++ "." ++ extension
  appHome ++ "/downloads/datasets/" ++ filename

/-- `preview_download`.  The whole body sits in a `try`, every local
failure returning `{"valid": False, "error": ...}`. -/
def preview_download (appHome : String) (today : Date) (datasource ticker : String)
    (start stop : Option String) (interval : String) (market : Option String)
    (timeframe : Option String) : Preview :=
  let se :=
    if truthy timeframe || !(truthy start && truthy stop) then
      calculate_dates_from_timeframe today timeframe start stop
    else (start.getD "", stop.getD "")
  let s := se.1
  let e := se.2
  match validate_required_params
      [("datasource", some datasource), ("ticker", some ticker),
       ("start", some s), ("end", some e)] with
  | .error msg => .invalid msg
  | .ok _ =>
    let tv := validate_ticker ticker
    if tv.valid = false then .invalid (tv.error.getD "")
    else
      let marketStep : Except String (String × Option (String × String)) :=
        if truthy market then
          let m := market.getD ""
          match DownloadConfigManager.get_market_config m,
                DownloadConfigManager.get_ticker_with_suffix ticker m with
          | .ok config, .ok ft => .ok (ft, some (config.name, ft))
          | _, _ => .error ("Invalid market: " ++ m)
        else .ok (ticker, none)
      match marketStep with
      | .error msg => .invalid msg
      | .ok (final_ticker, market_info) =>
        let output_path := get_output_path_with_format appHome ticker datasource
          s e interval market "csv" none false timeframe
        match parseDateStr s, parseDateStr e with
        | some sd, some ed =>
          if toDays sd ≥ toDays ed then
            .invalid "Start date must be before end date"
          else
            .valid { ticker := ticker, final_ticker := final_ticker,
                     datasource := datasource, start := s, stop := e,
                     interval := interval, market_info := market_info,
                     output_path := output_path }
        | _, _ => .invalid "Invalid date format (use YYYY-MM-DD)"

/-- The `try` body of `download_data` after date resolution, as an
exception-propagating computation: format validation, preview, adapter
construction, fetch, empty check, output-path computation. -/
def download_body (create : String → Option String → Except String Adapter)
    (appHome : String) (today : Date) (datasource ticker : String)
    (s e interval : String) (market : Option String)
    (output_format : String) (timeframe exchange : Option String) :
    Except String (Frame × String) :=
  if !(lowerStr output_format = "csv" || lowerStr output_format = "json") then
    .error ("Unsupported output format: " ++ output_format ++
            ". Supported formats: csv, json")
  else
    match preview_download appHome today datasource ticker (some s) (some e)
        interval market none with
    | .invalid err => .error err
    | .valid info => do
      let adapter ← create datasource exchange
      let df ← adapter info.final_ticker s e interval
      if df.rows.isEmpty then
        .error ("No data found for " ++ info.final_ticker ++
                " in the specified date range")
      else
        .ok (df, get_output_path_with_format appHome ticker datasource s e
              interval market output_format exchange false timeframe)

/-- The return/`except` tail of `download_data`: a successful body
becomes a successful `DownloadResult`, a raise becomes a failed one
carrying `"Download failed: " + message`. -/
def to_download_result (ticker datasource : String) (market : Option String)
    (s e interval : String) : Except String (Frame × String) → DownloadResult
  | .ok (df, path) =>
    { ticker := ticker, datasource := datasource, market := market,
      data := some df, file_path := some path, start_date := s, end_date := e,
      interval := interval, success := true, error := none }
  | .error msg =>
    { ticker := ticker, datasource := datasource, market := market,
      data := none, file_path := none, start_date := s, end_date := e,
      interval := interval, success := false,
      error := some ("Download failed: " ++ msg) }

/-- `download_data`.  `create` models `registry.create_datasource(name,
**kwargs)` (with the optional `exchange` kwarg); the surrounding
`try/except` turns every raise into a failed `DownloadResult` carrying
the message. -/
def download_data (create : String → Option String → Except String Adapter)
    (appHome : String) (today : Date) (datasource ticker : String)
    (start stop : Option String) (interval : String) (market : Option String)
    (output_format : String) (timeframe exchange : Option String) : DownloadResult :=
  let se :=
    if truthy timeframe || !(truthy start && truthy stop) then
      calculate_dates_from_timeframe today timeframe start stop
    else (start.getD "", stop.getD "")
  to_download_result ticker datasource market se.1 se.2 interval
    (download_body create appHome today datasource ticker se.1 se.2 interval
      market output_format timeframe exchange)

end DownloadService

/-! ## Concrete fixtures used in witnesses and counterexamples -/

/-- A polygon upstream that always answers 200 with one bar at
2024-01-01T00:00Z. -/
def polyHttpOk : PolyReq → PolyResp :=
  fun _ => ⟨200, "", [⟨1, 2, 0, 1, 5, 1704067200000⟩]⟩

/-- An FMP upstream that always answers 200 with no bars. -/
def fmpHttpEmpty : FmpReq → FmpResp := fun _ => ⟨200, "", []⟩

/-- A `yf.download` stub returning alphabetically ordered columns, as the
Yahoo SDK does. -/
def yfDownloadAlpha : YfReq → Frame :=
  fun _ => ⟨"Date", ["Close", "High", "Low", "Open", "Volume"], [(0, [1, 2, 3, 4, 5])]⟩

/-- A one-row normalized frame. -/
def oneRowFrame : Frame := ⟨"date", stdCols, [(0, [1, 1, 1, 1, 1])]⟩

/-- An adapter whose fetch always succeeds with one row. -/
def adapterOk : Adapter := fun _ _ _ _ => .ok oneRowFrame

/-- A registry `create` that always returns `adapterOk`. -/
def createOk : String → Option String → Except String Adapter :=
  fun _ _ => .ok adapterOk

/-- A registry `create` that always raises. -/
def createErr : String → Option String → Except String Adapter :=
  fun _ _ => .error "Polygon API key is required"

/-- A ccxt exchange whose every page is the same single candle at
timestamp 0 (its cursor therefore never advances past 1). -/
def ccxtStuckExchange : CcxtExchange :=
  ⟨none, fun _ _ _ _ => .ok [⟨0, 1, 1, 1, 1, 1⟩]⟩

/-- Accumulated candles from two successive pages that overlap at
timestamp 2000 (different payloads so the kept copy is observable), with
one candle outside the requested range. -/
def accTwoPages : List Candle :=
  [⟨1000, 1, 1, 1, 1, 1⟩, ⟨2000, 2, 2, 2, 2, 2⟩,
   ⟨2000, 9, 9, 9, 9, 9⟩, ⟨3000, 3, 3, 3, 3, 3⟩, ⟨9999999, 4, 4, 4, 4, 4⟩]

end Connors

/-! # Theorems -/

namespace Connors

/-- `validate_date_format` succeeds exactly on parseable dates. -/
theorem validate_date_format_ok {s : String} (h : (parseDateStr s).isSome = true) :
    TimespanCalculator.validate_date_format s = .ok () := by
  simp [TimespanCalculator.validate_date_format, h]

/-- A parseable date string is non-empty. -/
theorem parseDateStr_ne_empty {s : String} (h : (parseDateStr s).isSome = true) :
    s ≠ "" := by
  intro hs
  subst hs
  exact absurd h (by decide)

/-- C7: when both `start_date` and `end_date` are supplied and well-formed,
`calculate_dates` returns them verbatim, for any timespan argument and any
now/end override; re-resolving its own output therefore returns the same
pair (idempotence). -/
theorem claim_C7_explicit_dates_returned_verbatim
    (s e : String) (timespan : Option String) (ov : Option Date) (today : Date)
    (h1 : (parseDateStr s).isSome = true) (h2 : (parseDateStr e).isSome = true) :
    TimespanCalculator.calculate_dates timespan (some s) (some e) ov today =
      .ok (s, e) ∧
    (∀ (timespan₂ : Option String) (ov₂ : Option Date) (today₂ : Date),
      TimespanCalculator.calculate_dates timespan₂ (some s) (some e) ov₂ today₂ =
        .ok (s, e)) := by
  have hs := parseDateStr_ne_empty h1
  have he := parseDateStr_ne_empty h2
  have key : ∀ (t : Option String) (o : Option Date) (d : Date),
      TimespanCalculator.calculate_dates t (some s) (some e) o d = .ok (s, e) := by
    intro t o d
    simp [TimespanCalculator.calculate_dates, truthy, hs, he,
      TimespanCalculator.validate_date_format, h1, h2, Option.getD,
      Bind.bind, Except.bind, pure, Except.pure]
  exact ⟨key timespan ov today, fun t o d => key t o d⟩

/-- Witness for C7 at a concrete well-formed pair. -/
theorem claim_C7_witness :
    TimespanCalculator.calculate_dates (some "6M") (some "2024-01-02")
      (some "2024-03-04") none ⟨2025, 1, 1⟩ = .ok ("2024-01-02", "2024-03-04") :=
  (claim_C7_explicit_dates_returned_verbatim "2024-01-02" "2024-03-04"
    (some "6M") none ⟨2025, 1, 1⟩ (by decide) (by decide)).1

/-- C6: resolving `"1Y"` with an end override is a fixed 365-calendar-day
subtraction, and on the leap-spanning end date 2024-06-15 the start lands on
2023-06-16 — not on "same day previous year" (2023-06-15). -/
theorem claim_C6_1Y_is_365_day_subtraction :
    (∀ (E today : Date), dateValid E = true →
      TimespanCalculator.calculate_dates (some "1Y") none none (some E) today =
        .ok (formatDate (ofDays (toDays E - 365)), formatDate E)) ∧
    (∀ today : Date,
      TimespanCalculator.calculate_dates (some "1Y") none none
        (some ⟨2024, 6, 15⟩) today = .ok ("2023-06-16", "2024-06-15")) ∧
    "2023-06-16" ≠ formatDate ⟨2023, 6, 15⟩ := by
  refine ⟨fun E today _ => rfl, fun today => ?_, by decide⟩
  have h1 : TimespanCalculator.calculate_dates (some "1Y") none none
      (some ⟨2024, 6, 15⟩) today =
      .ok (formatDate (ofDays (toDays ⟨2024, 6, 15⟩ - 365)),
           formatDate ⟨2024, 6, 15⟩) := rfl
  rw [h1]
  exact congrArg Except.ok (by decide)

/-- Witness for C6 at a concrete end date. -/
theorem claim_C6_witness :
    TimespanCalculator.calculate_dates (some "1Y") none none
      (some ⟨2024, 6, 15⟩) ⟨2020, 1, 1⟩ =
      .ok (formatDate (ofDays (toDays ⟨2024, 6, 15⟩ - 365)), formatDate ⟨2024, 6, 15⟩) :=
  (claim_C6_1Y_is_365_day_subtraction).1 ⟨2024, 6, 15⟩ ⟨2020, 1, 1⟩ (by decide)

/-- Looking up the key just written by dict assignment yields the new
value. -/
theorem find?_dictInsert {α : Type} (r : List (String × α)) (n : String) (v : α) :
    (dictInsert r n v).find? (fun p => p.1 == n) = some (n, v) := by
  induction r with
  | nil => simp [dictInsert]
  | cons hd tl ih =>
    obtain ⟨k, w⟩ := hd
    by_cases hk : k = n
    · subst hk
      simp [dictInsert, List.find?]
    · simp [dictInsert, hk, List.find?, ih]

/-- Dict assignment to an existing key leaves the key list unchanged. -/
theorem keys_dictInsert_mem {α : Type} (r : List (String × α)) (n : String) (v : α)
    (h : n ∈ r.map (·.1)) :
    (dictInsert r n v).map (·.1) = r.map (·.1) := by
  induction r with
  | nil => simp at h
  | cons hd tl ih =>
    obtain ⟨k, w⟩ := hd
    by_cases hk : k = n
    · subst hk
      simp [dictInsert]
    · have h' : n ∈ tl.map (·.1) := by
        simpa [hk, Ne.symm hk] using h
      simp [dictInsert, hk, ih h']

/-- Dict assignment to a fresh key appends it. -/
theorem keys_dictInsert_notmem {α : Type} (r : List (String × α)) (n : String) (v : α)
    (h : n ∉ r.map (·.1)) :
    (dictInsert r n v).map (·.1) = r.map (·.1) ++ [n] := by
  induction r with
  | nil => simp [dictInsert]
  | cons hd tl ih =>
    obtain ⟨k, w⟩ := hd
    have hk : k ≠ n := by
      intro hkn
      exact h (by simp [hkn])
    have h' : n ∉ tl.map (·.1) := fun hm => h (by simp [hm])
    simp [dictInsert, hk, ih h']

/-- The key written by a dict assignment is a key of the dict. -/
theorem mem_keys_dictInsert {α : Type} (r : List (String × α)) (n : String) (v : α) :
    n ∈ (dictInsert r n v).map (·.1) := by
  by_cases h : n ∈ r.map (·.1)
  · rw [keys_dictInsert_mem r n v h]
    exact h
  · rw [keys_dictInsert_notmem r n v h]
    simp

/-- C10: registering a datasource under an already-registered name never
fails and silently replaces the earlier constructor: `create` then builds
the newer class, the name list is unchanged by the second registration,
and the name still occurs exactly once. -/
theorem claim_C10_reregistration_replaces {α : Type} (r : List (String × α))
    (n : String) (c₁ c₂ : α)
    (h : (DataSourceRegistry.list_datasources r).count n ≤ 1) :
    DataSourceRegistry.create_datasource
        (DataSourceRegistry.register_datasource
          (DataSourceRegistry.register_datasource r n c₁) n c₂) n = .ok c₂ ∧
    DataSourceRegistry.list_datasources
        (DataSourceRegistry.register_datasource
          (DataSourceRegistry.register_datasource r n c₁) n c₂) =
      DataSourceRegistry.list_datasources
        (DataSourceRegistry.register_datasource r n c₁) ∧
    (DataSourceRegistry.list_datasources
        (DataSourceRegistry.register_datasource
          (DataSourceRegistry.register_datasource r n c₁) n c₂)).count n = 1 := by
  unfold DataSourceRegistry.register_datasource DataSourceRegistry.create_datasource
    DataSourceRegistry.list_datasources
  refine ⟨by rw [find?_dictInsert], ?_, ?_⟩
  · exact keys_dictInsert_mem _ n c₂ (mem_keys_dictInsert r n c₁)
  · rw [keys_dictInsert_mem _ n c₂ (mem_keys_dictInsert r n c₁)]
    by_cases hm : n ∈ r.map (·.1)
    · rw [keys_dictInsert_mem r n c₁ hm]
      have h1 : 1 ≤ (r.map (·.1)).count n := List.one_le_count_iff.mpr hm
      exact le_antisymm h h1
    · rw [keys_dictInsert_notmem r n c₁ hm]
      simp [List.count_append, List.count_eq_zero_of_not_mem hm]

/-- Witness for C10 on a concrete registry. -/
theorem claim_C10_witness :
    DataSourceRegistry.create_datasource
        (DataSourceRegistry.register_datasource
          (DataSourceRegistry.register_datasource [("yfinance", 7)] "polygon" 1)
          "polygon" 2) "polygon" = .ok 2 ∧
    DataSourceRegistry.list_datasources
        (DataSourceRegistry.register_datasource
          (DataSourceRegistry.register_datasource [("yfinance", 7)] "polygon" 1)
          "polygon" 2) =
      DataSourceRegistry.list_datasources
        (DataSourceRegistry.register_datasource [("yfinance", 7)] "polygon" 1) ∧
    (DataSourceRegistry.list_datasources
        (DataSourceRegistry.register_datasource
          (DataSourceRegistry.register_datasource [("yfinance", 7)] "polygon" 1)
          "polygon" 2)).count "polygon" = 1 :=
  claim_C10_reregistration_replaces [("yfinance", 7)] "polygon" 1 2 (by decide)

end Connors

namespace Connors

/-- C1 counterexample: the polygon adapter does NOT fail on the
unsupported interval `"5m"` — the fetch succeeds against a 200 upstream,
the interval having been silently mapped to the daily range code. -/
theorem claim_C1_counterexample :
    (PolygonDataSource.fetch polyHttpOk "key" "AAPL" "2024-01-01" "2024-01-31"
      "5m").toOption.isSome = true := by
  decide

/-- C1 (amended): fmp and ccxt reject intervals outside their supported
sets with invalid-input errors, but polygon and finnhub silently
substitute the daily code (`("day", 1)` resp. `"D"`) for any unrecognized
interval and proceed with the upstream request. -/
theorem claim_C1_interval_validation_amended :
    (∀ i : String, i ≠ "1d" → i ≠ "1wk" → i ≠ "1mo" →
      PolygonDataSource.intervalMap i = ("day", 1)) ∧
    (∀ i : String, i ≠ "1d" → i ≠ "1wk" → i ≠ "1mo" →
      FinnhubDataSource.intervalMap i = "D") ∧
    (∀ (http : FmpReq → FmpResp) (key sym s e i : String),
      i ≠ "1d" → i ≠ "1wk" → i ≠ "1mo" →
      FinancialModelingPrepDataSource.fetch http key sym s e i =
        .error ("Unsupported interval: " ++ i ++ ". Use " ++ sq ++ "1d" ++ sq ++
                ", " ++ sq ++ "1wk" ++ sq ++ ", or " ++ sq ++ "1mo" ++ sq ++ ".")) ∧
    (∀ (ex : CcxtExchange) (eid sym s e i : String),
      (∀ p ∈ CCXTDataSource.INTERVAL_MAP, p.1 ≠ i) →
      CCXTDataSource.fetch ex eid sym s e i =
        .error ("Interval " ++ sq ++ i ++ sq ++
                " not supported for CCXT datasource. Supported intervals: " ++
                CCXTDataSource.supportedJoined)) := by
  refine ⟨?_, ?_, ?_, ?_⟩
  · intro i h1 h2 h3
    simp [PolygonDataSource.intervalMap, h1, h2, h3]
  · intro i h1 h2 h3
    simp [FinnhubDataSource.intervalMap, h1, h2, h3]
  · intro http key sym s e i h1 h2 h3
    simp [FinancialModelingPrepDataSource.fetch, h1, h2, h3]
  · intro ex eid sym s e i hnone
    have hfind : CCXTDataSource.INTERVAL_MAP.find? (fun p => p.1 == i) = none :=
      List.find?_eq_none.mpr (fun p hp => by simp [hnone p hp])
    simp [CCXTDataSource.fetch, hfind]

/-- Witness for C1 (amended): fmp rejects `"5m"`. -/
theorem claim_C1_witness :
    FinancialModelingPrepDataSource.fetch fmpHttpEmpty "key" "AAPL"
      "2024-01-01" "2024-01-31" "5m" =
      .error ("Unsupported interval: " ++ "5m" ++ ". Use " ++ sq ++ "1d" ++ sq ++
              ", " ++ sq ++ "1wk" ++ sq ++ ", or " ++ sq ++ "1mo" ++ sq ++ ".") :=
  claim_C1_interval_validation_amended.2.2.1 fmpHttpEmpty "key" "AAPL"
    "2024-01-01" "2024-01-31" "5m" (by decide) (by decide) (by decide)

/-- C2 counterexample: the yfinance adapter does not reorder columns — on
an upstream frame with alphabetically ordered columns (as Yahoo returns
them) the output column order is not
`["open","high","low","close","volume"]`. -/
theorem claim_C2_counterexample :
    (YfinanceDataSource.fetch yfDownloadAlpha "AAPL" "2024-01-01" "2024-01-31"
      "1d").cols ≠ stdCols := by
  decide

/-- C2 (amended): the polygon, finnhub, fmp and ccxt adapters always emit
column set exactly `["open","high","low","close","volume"]` in that order
with index name `"date"` on every successful fetch; the yfinance adapter
only lower-cases the upstream column names (and the index name when it is
truthy) preserving upstream order, so its output meets the contract only
when the upstream already returns `Open,High,Low,Close,Volume` in that
order. -/
theorem claim_C2_columns_amended :
    (∀ (http : PolyReq → PolyResp) (key sym s e i : String) (f : Frame),
      PolygonDataSource.fetch http key sym s e i = .ok f →
      f.cols = stdCols ∧ f.indexName = "date") ∧
    (∀ (http : FinnReq → FinnResp) (key sym s e i : String) (f : Frame),
      FinnhubDataSource.fetch http key sym s e i = .ok f →
      f.cols = stdCols ∧ f.indexName = "date") ∧
    (∀ (http : FmpReq → FmpResp) (key sym s e i : String) (f : Frame),
      FinancialModelingPrepDataSource.fetch http key sym s e i = .ok f →
      f.cols = stdCols ∧ f.indexName = "date") ∧
    (∀ (ex : CcxtExchange) (eid sym s e i : String) (f : Frame),
      CCXTDataSource.fetch ex eid sym s e i = .ok f →
      f.cols = stdCols ∧ f.indexName = "date") ∧
    (∀ (download : YfReq → Frame) (sym s e i : String),
      (YfinanceDataSource.fetch download sym s e i).cols =
        ((download ⟨sym, s, e, i⟩).cols).map lowerStr ∧
      (YfinanceDataSource.fetch download sym s e i).indexName =
        (if (download ⟨sym, s, e, i⟩).indexName ≠ "" then
          lowerStr (download ⟨sym, s, e, i⟩).indexName
        else (download ⟨sym, s, e, i⟩).indexName)) := by
  refine ⟨?_, ?_, ?_, ?_, fun download sym s e i => ⟨rfl, rfl⟩⟩
  · intro http key sym s e i f h
    unfold PolygonDataSource.fetch at h
    simp only [] at h
    repeat' split at h
    all_goals try exact Except.noConfusion h
    all_goals injection h with h'
    all_goals rw [← h']
    all_goals exact ⟨rfl, rfl⟩
  · intro http key sym s e i f h
    unfold FinnhubDataSource.fetch at h
    simp only [] at h
    repeat' split at h
    all_goals try exact Except.noConfusion h
    all_goals injection h with h'
    all_goals rw [← h']
    all_goals exact ⟨rfl, rfl⟩
  · intro http key sym s e i f h
    unfold FinancialModelingPrepDataSource.fetch at h
    simp only [Bind.bind, Except.bind] at h
    repeat' split at h
    all_goals try exact Except.noConfusion h
    all_goals injection h with h'
    all_goals rw [← h']
    all_goals exact ⟨rfl, rfl⟩
  · intro ex eid sym s e i f h
    unfold CCXTDataSource.fetch at h
    simp only [Bind.bind, Except.bind] at h
    repeat' split at h
    all_goals try exact Except.noConfusion h
    all_goals injection h with h'
    all_goals rw [← h']
    all_goals exact ⟨rfl, rfl⟩

/-- Witness for C2 (amended) on a concrete successful polygon fetch. -/
theorem claim_C2_witness :
    (Frame.mk "date" stdCols [(1704067200000, [1, 2, 0, 1, 5])]).cols = stdCols ∧
    (Frame.mk "date" stdCols [(1704067200000, [1, 2, 0, 1, 5])]).indexName = "date" :=
  claim_C2_columns_amended.1 polyHttpOk "key" "AAPL" "2024-01-01" "2024-01-31" "1d"
    (Frame.mk "date" stdCols [(1704067200000, [1, 2, 0, 1, 5])]) (by decide)

end Connors

namespace Connors

/-- If every page is non-empty and advances the cursor to a value still
below the target end, the loop burns through all its remaining
iterations and fails with the exhaustion error. -/
theorem go_exhausts (ex : CcxtExchange) (sym tf eid : String) (untilMs : Int)
    (hpages : ∀ s : Int, ∃ c cs, ex.fetchOhlcv sym tf s 1000 = .ok (c :: cs) ∧
      lastTsD (c :: cs) + 1 < untilMs) :
    ∀ (iterLeft : Nat) (cur : Int) (acc : List Candle), cur < untilMs →
      CCXTDataSource.go ex sym tf eid untilMs iterLeft cur acc =
        .error CCXTDataSource.maxIterMsg := by
  intro iterLeft
  induction iterLeft with
  | zero =>
    intro cur acc hcur
    simp [CCXTDataSource.go, hcur]
  | succ n ih =>
    intro cur acc hcur
    obtain ⟨c, cs, hf, hlt⟩ := hpages cur
    rw [CCXTDataSource.go.eq_def]
    simp only [hcur, if_true, hf, not_le.mpr hlt, ite_false, if_neg (not_le.mpr hlt)]
    exact ih _ _ hlt

/-- C4: the pagination loop stops when the cursor has reached the target
end, stops on an empty page, stops when the advanced cursor (last candle
timestamp + 1 ms) reaches the end, and — when pages keep coming without
the cursor ever reaching the end — every remaining iteration is consumed
and the fetch fails with the exhaustion error; at the `fetch` entry point
the iteration budget is exactly 1000. -/
theorem claim_C4_pagination_terminates :
    (∀ (ex : CcxtExchange) (sym tf eid : String) (untilMs : Int) (iterLeft : Nat)
        (cur : Int) (acc : List Candle), ¬ cur < untilMs →
      CCXTDataSource.go ex sym tf eid untilMs iterLeft cur acc = .ok acc) ∧
    (∀ (ex : CcxtExchange) (sym tf eid : String) (untilMs : Int) (n : Nat)
        (cur : Int) (acc : List Candle), cur < untilMs →
      ex.fetchOhlcv sym tf cur 1000 = .ok [] →
      CCXTDataSource.go ex sym tf eid untilMs (n + 1) cur acc = .ok acc) ∧
    (∀ (ex : CcxtExchange) (sym tf eid : String) (untilMs : Int) (n : Nat)
        (cur : Int) (acc : List Candle) (c : Candle) (cs : List Candle),
      cur < untilMs →
      ex.fetchOhlcv sym tf cur 1000 = .ok (c :: cs) →
      lastTsD (c :: cs) + 1 ≥ untilMs →
      CCXTDataSource.go ex sym tf eid untilMs (n + 1) cur acc =
        .ok (acc ++ (c :: cs))) ∧
    (∀ (ex : CcxtExchange) (sym tf eid : String) (untilMs : Int) (iterLeft : Nat)
        (cur : Int) (acc : List Candle), cur < untilMs →
      (∀ s : Int, ∃ c cs, ex.fetchOhlcv sym tf s 1000 = .ok (c :: cs) ∧
        lastTsD (c :: cs) + 1 < untilMs) →
      CCXTDataSource.go ex sym tf eid untilMs iterLeft cur acc =
        .error CCXTDataSource.maxIterMsg) ∧
    (∀ (ex : CcxtExchange) (eid sym start stop : String) (ds de : Date),
      parseDateStr start = some ds → parseDateStr stop = some de →
      ex.timeframes = none →
      toDays ds * 86400000 < toDays de * 86400000 →
      (∀ s : Int, ∃ c cs, ex.fetchOhlcv sym "1d" s 1000 = .ok (c :: cs) ∧
        lastTsD (c :: cs) + 1 < toDays de * 86400000) →
      CCXTDataSource.fetch ex eid sym start stop "1d" =
        .error CCXTDataSource.maxIterMsg) := by
  refine ⟨?_, ?_, ?_, ?_, ?_⟩
  · intro ex sym tf eid untilMs iterLeft cur acc hcur
    rw [CCXTDataSource.go.eq_def]
    simp [hcur]
  · intro ex sym tf eid untilMs n cur acc hcur hf
    rw [CCXTDataSource.go.eq_def]
    simp [hcur, hf]
  · intro ex sym tf eid untilMs n cur acc c cs hcur hf hge
    rw [CCXTDataSource.go.eq_def]
    simp [hcur, hf, hge]
  · intro ex sym tf eid untilMs iterLeft cur acc hcur hpages
    exact go_exhausts ex sym tf eid untilMs hpages iterLeft cur acc hcur
  · intro ex eid sym start stop ds de hds hde htf hlt hpages
    unfold CCXTDataSource.fetch
    simp only [hds, hde, htf]
    have hfind : List.find? (fun p => p.1 == "1d") CCXTDataSource.INTERVAL_MAP =
        some ("1d", "1d") := rfl
    simp only [hfind]
    simp only [Bind.bind, Except.bind]
    rw [go_exhausts ex sym "1d" eid (toDays de * 86400000) hpages 1000
      (toDays ds * 86400000) [] hlt]

/-- Witness for C4: a single-candle exchange whose cursor is stuck at 1
exhausts the 1000-iteration budget. -/
theorem claim_C4_witness :
    CCXTDataSource.fetch ccxtStuckExchange "binance" "BTC/USDT"
      "2024-01-01" "2024-01-31" "1d" = .error CCXTDataSource.maxIterMsg :=
  claim_C4_pagination_terminates.2.2.2.2 ccxtStuckExchange "binance" "BTC/USDT"
    "2024-01-01" "2024-01-31" ⟨2024, 1, 1⟩ ⟨2024, 1, 31⟩ (by decide) (by decide)
    rfl (by decide)
    (fun s => ⟨⟨0, 1, 1, 1, 1, 1⟩, [], rfl, by decide⟩)

end Connors

namespace Connors

namespace CCXTDataSource

/-- The de-duplication pass yields a sublist of its input. -/
theorem dedupFirstAux_sublist (seen : List Int) (l : List Candle) :
    List.Sublist (dedupFirstAux seen l) l := by
  induction l generalizing seen with
  | nil => simp [dedupFirstAux]
  | cons c cs ih =>
    rw [dedupFirstAux]
    by_cases hm : c.ts ∈ seen
    · simp only [hm, if_true]
      exact (ih seen).trans (List.sublist_cons_self c cs)
    · simp only [hm, if_false]
      exact (ih (c.ts :: seen)).cons₂ c

/-- No timestamp surviving the de-duplication pass was in `seen`. -/
theorem dedupFirstAux_ts_fresh (seen : List Int) (l : List Candle) :
    ∀ x ∈ dedupFirstAux seen l, x.ts ∉ seen := by
  induction l generalizing seen with
  | nil => simp [dedupFirstAux]
  | cons c cs ih =>
    rw [dedupFirstAux]
    by_cases hm : c.ts ∈ seen
    · simpa [hm] using ih seen
    · simp only [hm, if_false]
      intro x hx
      rw [List.mem_cons] at hx
      rcases hx with hx | hx
      · rw [hx]
        exact hm
      · intro hseen
        exact (ih (c.ts :: seen) x hx) (List.mem_cons_of_mem _ hseen)

/-- The de-duplicated list has pairwise distinct timestamps. -/
theorem dedupFirstAux_pairwise_ne (seen : List Int) (l : List Candle) :
    (dedupFirstAux seen l).Pairwise (fun x y => x.ts ≠ y.ts) := by
  induction l generalizing seen with
  | nil => simp [dedupFirstAux]
  | cons c cs ih =>
    rw [dedupFirstAux]
    by_cases hm : c.ts ∈ seen
    · simpa [hm] using ih seen
    · simp only [hm, if_false]
      refine List.Pairwise.cons ?_ (ih (c.ts :: seen))
      intro y hy heq
      exact (dedupFirstAux_ts_fresh (c.ts :: seen) cs y hy) (by rw [← heq]; simp)

/-- Keep-first: every survivor of the de-duplication pass is the FIRST
element of the input carrying its timestamp. -/
theorem dedupFirstAux_keeps_first (seen : List Int) (l : List Candle) :
    ∀ c ∈ dedupFirstAux seen l, l.find? (fun x => x.ts == c.ts) = some c := by
  induction l generalizing seen with
  | nil => simp [dedupFirstAux]
  | cons d ds ih =>
    rw [dedupFirstAux]
    by_cases hm : d.ts ∈ seen
    · simp only [hm, if_true]
      intro c hc
      have hfresh : c.ts ∉ seen := dedupFirstAux_ts_fresh seen ds c hc
      have hne : (d.ts == c.ts) = false := by
        refine beq_eq_false_iff_ne.mpr ?_
        intro he
        exact hfresh (he ▸ hm)
      rw [List.find?_cons_of_neg _ (by simp [hne]), ih seen c hc]
    · simp only [hm, if_false]
      intro c hc
      rw [List.mem_cons] at hc
      rcases hc with hc | hc
      · rw [hc]
        exact List.find?_cons_of_pos _ (by simp)
      · have hfresh : c.ts ∉ d.ts :: seen :=
          dedupFirstAux_ts_fresh (d.ts :: seen) ds c hc
        have hne : (d.ts == c.ts) = false := by
          refine beq_eq_false_iff_ne.mpr ?_
          intro he
          exact hfresh (by rw [← he]; simp)
        rw [List.find?_cons_of_neg _ (by simp [hne]), ih (d.ts :: seen) c hc]

/-- Completeness: every timestamp present in the input and not yet seen
is represented in the de-duplicated output. -/
theorem dedupFirstAux_complete (seen : List Int) (l : List Candle) (t : Int)
    (hseen : t ∉ seen) (hex : ∃ x ∈ l, x.ts = t) :
    ∃ c ∈ dedupFirstAux seen l, c.ts = t := by
  induction l generalizing seen with
  | nil => simp at hex
  | cons d ds ih =>
    rw [dedupFirstAux]
    by_cases hm : d.ts ∈ seen
    · simp only [hm, if_true]
      obtain ⟨x, hx, hxt⟩ := hex
      rw [List.mem_cons] at hx
      rcases hx with hx | hx
      · subst hx
        exact absurd (hxt ▸ hm) hseen
      · exact ih seen hseen ⟨x, hx, hxt⟩
    · simp only [hm, if_false]
      by_cases hdt : d.ts = t
      · exact ⟨d, by simp, hdt⟩
      · obtain ⟨x, hx, hxt⟩ := hex
        rw [List.mem_cons] at hx
        rcases hx with hx | hx
        · subst hx
          exact absurd hxt hdt
        · have hseen' : t ∉ d.ts :: seen := by
            intro hmem
            rw [List.mem_cons] at hmem
            rcases hmem with hmem | hmem
            · exact hdt hmem.symm
            · exact hseen hmem
          obtain ⟨c, hc, hct⟩ := ih (d.ts :: seen) hseen' ⟨x, hx, hxt⟩
          exact ⟨c, List.mem_cons_of_mem _ hc, hct⟩

/-- `orderedInsert` slots an element before the first one with a
greater-or-equal key, so filtering by any fixed key commutes with it. -/
theorem filter_orderedInsert_key (t : Int) (a : Candle) (l : List Candle) :
    (l.orderedInsert tsLe a).filter (fun x => x.ts == t) =
      (a :: l).filter (fun x => x.ts == t) := by
  rw [List.orderedInsert_eq_take_drop]
  rw [List.filter_append]
  by_cases hat : a.ts = t
  · have htw : (l.takeWhile fun b => decide ¬tsLe a b).filter
        (fun x => x.ts == t) = [] := by
      rw [List.filter_eq_nil_iff]
      intro x hx
      have := List.mem_takeWhile_imp hx
      have hlt : ¬ a.ts ≤ x.ts := by simpa [tsLe] using this
      simp only [beq_iff_eq]
      intro hxt
      exact hlt (by rw [hxt, hat])
    rw [htw]
    have hconsl : ((a :: l.dropWhile fun b => decide ¬tsLe a b).filter
        (fun x => x.ts == t)) = a :: ((l.dropWhile fun b => decide ¬tsLe a b).filter
        (fun x => x.ts == t)) := by
      rw [List.filter_cons_of_pos (by simp [hat])]
    rw [hconsl]
    rw [List.filter_cons_of_pos (by simp [hat])]
    have : (l.filter fun x => x.ts == t) =
        ((l.takeWhile fun b => decide ¬tsLe a b).filter (fun x => x.ts == t)) ++
        ((l.dropWhile fun b => decide ¬tsLe a b).filter (fun x => x.ts == t)) := by
      rw [← List.filter_append, List.takeWhile_append_dropWhile]
    rw [this, htw]
    simp
  · rw [List.filter_cons_of_neg (by simp [hat])]
    rw [List.filter_cons_of_neg (by simp [hat])]
    rw [← List.filter_append, List.takeWhile_append_dropWhile]

/-- Stability of the sort with respect to a fixed timestamp: sorting does
not change the relative order of equal-timestamp candles. -/
theorem filter_insertionSort_key (t : Int) (l : List Candle) :
    (List.insertionSort tsLe l).filter (fun x => x.ts == t) =
      l.filter (fun x => x.ts == t) := by
  induction l with
  | nil => rfl
  | cons a l ih =>
    rw [List.insertionSort]
    rw [filter_orderedInsert_key t a (List.insertionSort tsLe l)]
    by_cases hat : a.ts = t
    · rw [List.filter_cons_of_pos (by simp [hat]),
        List.filter_cons_of_pos (by simp [hat]), ih]
    · rw [List.filter_cons_of_neg (by simp [hat]),
        List.filter_cons_of_neg (by simp [hat]), ih]

/-- `find?` is the head of `filter`. -/
theorem find?_eq_head_filter (p : Candle → Bool) (l : List Candle) :
    l.find? p = (l.filter p).head? := by
  induction l with
  | nil => rfl
  | cons a l ih =>
    by_cases ha : p a
    · rw [List.find?_cons_of_pos _ ha, List.filter_cons_of_pos ha]
      rfl
    · rw [List.find?_cons_of_neg _ (by simpa using ha),
        List.filter_cons_of_neg (by simpa using ha), ih]

/-- Filtering by a weaker predicate does not change the first match of a
stronger one. -/
theorem find?_filter_of_imp (p q : Candle → Bool) (l : List Candle)
    (himp : ∀ x, q x = true → p x = true) :
    (l.filter p).find? q = l.find? q := by
  induction l with
  | nil => rfl
  | cons a l ih =>
    by_cases hq : q a
    · have hp : p a := himp a hq
      rw [List.filter_cons_of_pos hp, List.find?_cons_of_pos _ hq,
        List.find?_cons_of_pos _ hq]
    · by_cases hp : p a
      · rw [List.filter_cons_of_pos hp, List.find?_cons_of_neg _ (by simpa using hq),
          List.find?_cons_of_neg _ (by simpa using hq), ih]
      · rw [List.filter_cons_of_neg (by simpa using hp),
          List.find?_cons_of_neg _ (by simpa using hq), ih]

end CCXTDataSource

end Connors

namespace Connors

/-- C5: the ccxt post-fetch normalization returns exactly the accumulated
candles whose timestamps lie in `[start, end]` inclusive: strictly
ascending by timestamp, each surviving candle is the first occurrence of
its timestamp in the accumulated list, and every in-range timestamp of
the accumulated list is represented. -/
theorem claim_C5_normalize_filters_sorts_dedups (a b : Int) (acc : List Candle) :
    List.Chain' (fun x y : Candle => x.ts < y.ts)
      (CCXTDataSource.normalize a b acc) ∧
    (∀ c ∈ CCXTDataSource.normalize a b acc,
      (a ≤ c.ts ∧ c.ts ≤ b) ∧
      acc.find? (fun x => x.ts == c.ts) = some c) ∧
    (∀ c ∈ acc, a ≤ c.ts → c.ts ≤ b →
      ∃ c' ∈ CCXTDataSource.normalize a b acc, c'.ts = c.ts) := by
  have hsorted : (List.insertionSort CCXTDataSource.tsLe
      (acc.filter (CCXTDataSource.inRangeB a b))).Pairwise CCXTDataSource.tsLe :=
    List.sorted_insertionSort CCXTDataSource.tsLe
      (acc.filter (CCXTDataSource.inRangeB a b))
  have hsub := CCXTDataSource.dedupFirstAux_sublist ([] : List Int)
    (List.insertionSort CCXTDataSource.tsLe
      (acc.filter (CCXTDataSource.inRangeB a b)))
  refine ⟨?_, ?_, ?_⟩
  · have hle : (CCXTDataSource.normalize a b acc).Pairwise CCXTDataSource.tsLe :=
      List.Pairwise.sublist hsub hsorted
    have hne := CCXTDataSource.dedupFirstAux_pairwise_ne ([] : List Int)
      (List.insertionSort CCXTDataSource.tsLe
        (acc.filter (CCXTDataSource.inRangeB a b)))
    have hlt : (CCXTDataSource.normalize a b acc).Pairwise
        (fun x y : Candle => x.ts < y.ts) :=
      (hle.and hne).imp (fun h => lt_of_le_of_ne h.1 h.2)
    exact hlt.chain'
  · intro c hc
    have hcL : c ∈ List.insertionSort CCXTDataSource.tsLe
        (acc.filter (CCXTDataSource.inRangeB a b)) := hsub.subset hc
    have hcF : c ∈ acc.filter (CCXTDataSource.inRangeB a b) :=
      (List.mem_insertionSort CCXTDataSource.tsLe).mp hcL
    have hrange : CCXTDataSource.inRangeB a b c = true := (List.mem_filter.mp hcF).2
    have hbounds : a ≤ c.ts ∧ c.ts ≤ b := by
      simpa [CCXTDataSource.inRangeB] using hrange
    refine ⟨hbounds, ?_⟩
    have h1 := CCXTDataSource.dedupFirstAux_keeps_first ([] : List Int)
      (List.insertionSort CCXTDataSource.tsLe
        (acc.filter (CCXTDataSource.inRangeB a b))) c hc
    rw [CCXTDataSource.find?_eq_head_filter,
      CCXTDataSource.filter_insertionSort_key c.ts,
      ← CCXTDataSource.find?_eq_head_filter] at h1
    rw [← CCXTDataSource.find?_filter_of_imp (CCXTDataSource.inRangeB a b)
      (fun x => x.ts == c.ts) acc ?_]
    · exact h1
    · intro x hx
      have hxt : x.ts = c.ts := by simpa using hx
      simp [CCXTDataSource.inRangeB, hxt, hbounds.1, hbounds.2]
  · intro c hcmem hla hlb
    have hcF : c ∈ acc.filter (CCXTDataSource.inRangeB a b) :=
      List.mem_filter.mpr ⟨hcmem, by simp [CCXTDataSource.inRangeB, hla, hlb]⟩
    have hcL : c ∈ List.insertionSort CCXTDataSource.tsLe
        (acc.filter (CCXTDataSource.inRangeB a b)) :=
      (List.mem_insertionSort CCXTDataSource.tsLe).mpr hcF
    exact CCXTDataSource.dedupFirstAux_complete ([] : List Int) _ c.ts
      (by simp) ⟨c, hcL, rfl⟩

/-- Witness for C5: on the two-overlapping-pages accumulation, the
candle kept at timestamp 2000 is the first of the two duplicates. -/
theorem claim_C5_witness :
    ((0 : Int) ≤ (2000 : Int) ∧ (2000 : Int) ≤ (5000 : Int)) ∧
    accTwoPages.find?
      (fun x => x.ts == (Candle.mk 2000 2 2 2 2 2).ts) =
      some (Candle.mk 2000 2 2 2 2 2) :=
  (claim_C5_normalize_filters_sorts_dedups 0 5000 accTwoPages).2.1
    (Candle.mk 2000 2 2 2 2 2) (by decide)

end Connors

namespace Connors

/-- A ticker that passes validation is non-empty. -/
theorem validate_ticker_valid_ne_empty {t : String}
    (h : (DownloadService.validate_ticker t).valid = true) : t ≠ "" := by
  intro ht
  subst ht
  simp [DownloadService.validate_ticker] at h

/-- With explicit non-empty dates, a passing ticker, a non-empty
datasource name and no market, `preview_download` reduces to the
date-range check. -/
theorem preview_explicit (appHome : String) (today : Date) (ds t s e i : String)
    (hds : ds ≠ "") (ht : (DownloadService.validate_ticker t).valid = true)
    (hs : s ≠ "") (he : e ≠ "") :
    DownloadService.preview_download appHome today ds t (some s) (some e) i
        none none =
      (match parseDateStr s, parseDateStr e with
       | some sd, some ed =>
         if toDays sd ≥ toDays ed then
           Preview.invalid "Start date must be before end date"
         else
           Preview.valid
             { ticker := t, final_ticker := t, datasource := ds, start := s,
               stop := e, interval := i, market_info := none,
               output_path := DownloadService.get_output_path_with_format appHome
                 t ds s e i none "csv" none false none }
       | _, _ => Preview.invalid "Invalid date format (use YYYY-MM-DD)") := by
  have htne : t ≠ "" := validate_ticker_valid_ne_empty ht
  unfold DownloadService.preview_download
  simp [truthy, hs, he, htne, hds, DownloadService.validate_required_params, ht]

end Connors

namespace Connors

/-- C9: a download or preview with explicit dates whose start is not
strictly before its end (single-day ranges included) fails with "Start
date must be before end date", and the download result is the same
whatever `create` would build — no adapter is ever constructed. -/
theorem claim_C9_start_before_end_required
    (appHome : String) (today : Date) (ds t s e i fmt : String)
    (ex : Option String) (sd ed : Date)
    (hds : ds ≠ "") (ht : (DownloadService.validate_ticker t).valid = true)
    (hs : parseDateStr s = some sd) (he : parseDateStr e = some ed)
    (hge : toDays ed ≤ toDays sd)
    (hfmt : lowerStr fmt = "csv" ∨ lowerStr fmt = "json") :
    DownloadService.preview_download appHome today ds t (some s) (some e) i
        none none = .invalid "Start date must be before end date" ∧
    (∀ create, DownloadService.download_data create appHome today ds t
        (some s) (some e) i none fmt none ex =
      { ticker := t, datasource := ds, market := none, data := none,
        file_path := none, start_date := s, end_date := e, interval := i,
        success := false,
        error := some ("Download failed: " ++ "Start date must be before end date") }) := by
  have hsne : s ≠ "" := by
    intro h0
    rw [h0] at hs
    rw [show parseDateStr "" = none from rfl] at hs
    exact Option.noConfusion hs
  have hene : e ≠ "" := by
    intro h0
    rw [h0] at he
    rw [show parseDateStr "" = none from rfl] at he
    exact Option.noConfusion he
  have hprev : DownloadService.preview_download appHome today ds t (some s)
      (some e) i none none = .invalid "Start date must be before end date" := by
    rw [preview_explicit appHome today ds t s e i hds ht hsne hene]
    simp [hs, he, hge]
  refine ⟨hprev, fun create => ?_⟩
  unfold DownloadService.download_data DownloadService.download_body
    DownloadService.to_download_result
  simp only [truthy, hsne, hene]
  rcases hfmt with hfmt | hfmt <;>
    simp [hfmt, hprev, truthy, hsne, hene]

end Connors

namespace Connors

/-- When ticker validation fails, `preview_download` is invalid whatever
the remaining arguments are. -/
theorem preview_bad_ticker (appHome : String) (today : Date) (ds t : String)
    (start stop : Option String) (i : String) (mk tf : Option String)
    (h : (DownloadService.validate_ticker t).valid = false) :
    ∃ msg, DownloadService.preview_download appHome today ds t start stop i mk tf =
      .invalid msg := by
  unfold DownloadService.preview_download
  simp only [h]
  split
  · exact ⟨_, rfl⟩
  · exact ⟨_, rfl⟩
/-- When ticker validation fails, the download body raises the same
error whatever `create` would have built. -/
theorem download_body_bad_ticker (create create' : String → Option String → Except String Adapter)
    (appHome : String) (today : Date) (ds t s e i : String)
    (mk : Option String) (fmt : String) (tf ex : Option String)
    (h : (DownloadService.validate_ticker t).valid = false) :
    ∃ err, DownloadService.download_body create appHome today ds t s e i mk fmt tf ex =
        .error err ∧
      DownloadService.download_body create appHome today ds t s e i mk fmt tf ex =
        DownloadService.download_body create' appHome today ds t s e i mk fmt tf ex := by
  obtain ⟨msg, hmsg⟩ := preview_bad_ticker appHome today ds t (some s) (some e) i mk none h
  by_cases hf : (lowerStr fmt = "csv" ∨ lowerStr fmt = "json")
  · refine ⟨msg, ?_, ?_⟩ <;>
    · unfold DownloadService.download_body
      rcases hf with hf | hf <;> simp [hf, hmsg]
  · rw [not_or] at hf
    refine ⟨"Unsupported output format: " ++ fmt ++ ". Supported formats: csv, json", ?_, ?_⟩ <;>
    · unfold DownloadService.download_body
      simp [hf.1, hf.2]

/-- Failed bodies assemble to failed results. -/
theorem to_download_result_error (t ds : String) (mk : Option String)
    (s e i msg : String) :
    DownloadService.to_download_result t ds mk s e i (.error msg) =
      { ticker := t, datasource := ds, market := mk, data := none,
        file_path := none, start_date := s, end_date := e, interval := i,
        success := false, error := some ("Download failed: " ++ msg) } := rfl

/-- C8: a download whose ticker is empty or malformed (fails the
syntactic ticker validation) returns a failed result and never reaches
adapter construction: the result is identical for any two `create`
functions.  The final three conjuncts characterize the validation:
empty tickers, tickers over 20 characters and tickers containing a
character outside alphanumeric plus `.`, `-`, `/` all fail it. -/
theorem claim_C8_bad_symbol_fails_before_adapter
    (create₁ create₂ : String → Option String → Except String Adapter)
    (appHome : String) (today : Date) (ds t : String) (start stop : Option String)
    (i : String) (mk : Option String) (fmt : String) (tf ex : Option String)
    (h : (DownloadService.validate_ticker t).valid = false) :
    (DownloadService.download_data create₁ appHome today ds t start stop i mk
        fmt tf ex).success = false ∧
    DownloadService.download_data create₁ appHome today ds t start stop i mk
        fmt tf ex =
      DownloadService.download_data create₂ appHome today ds t start stop i mk
        fmt tf ex ∧
    (DownloadService.validate_ticker "").valid = false ∧
    (∀ t' : String, 20 < t'.length →
      (DownloadService.validate_ticker t').valid = false) ∧
    (∀ (t' : String) (ch : Char), ch ∈ t'.data → ch.isAlphanum = false →
      ch ≠ '.' → ch ≠ '-' → ch ≠ '/' →
      (DownloadService.validate_ticker t').valid = false) := by
  have hsucc : ∀ (c : String → Option String → Except String Adapter) (s e : String),
      (DownloadService.to_download_result t ds mk s e i
        (DownloadService.download_body c appHome today ds t s e i mk fmt tf ex)).success
        = false := by
    intro c s e
    obtain ⟨err, herr, _⟩ := download_body_bad_ticker c c appHome today ds t s e i
      mk fmt tf ex h
    rw [herr, to_download_result_error]
  have heq : ∀ s e : String,
      DownloadService.to_download_result t ds mk s e i
        (DownloadService.download_body create₁ appHome today ds t s e i mk fmt tf ex) =
      DownloadService.to_download_result t ds mk s e i
        (DownloadService.download_body create₂ appHome today ds t s e i mk fmt tf ex) := by
    intro s e
    obtain ⟨err, herr, hsame⟩ := download_body_bad_ticker create₁ create₂ appHome
      today ds t s e i mk fmt tf ex h
    rw [hsame]
  refine ⟨hsucc create₁ _ _, heq _ _, by decide, ?_, ?_⟩
  · intro t' hlen
    unfold DownloadService.validate_ticker
    by_cases h0 : t' = ""
    · subst h0
      simp at hlen
    · simp only [h0, if_false]
      split
      · rfl
      · simp only [gt_iff_lt, hlen, if_true]
  · intro t' ch hmem hal hdot hdash hslash
    unfold DownloadService.validate_ticker
    have h0 : t' ≠ "" := by
      intro h0
      rw [h0] at hmem
      simp at hmem
    simp only [h0, if_false]
    have hstrip : ch ∈ t'.data.filter (fun c => c ≠ '.' && c ≠ '-' && c ≠ '/') := by
      refine List.mem_filter.mpr ⟨hmem, ?_⟩
      simp [hdot, hdash, hslash]
    have hall : (t'.data.filter
        (fun c => c ≠ '.' && c ≠ '-' && c ≠ '/')).all Char.isAlphanum = false := by
      rw [Bool.eq_false_iff]
      intro hall
      have := List.all_eq_true.mp hall ch hstrip
      rw [hal] at this
      exact Bool.false_ne_true this
    rw [if_pos]
    simp only [Bool.not_eq_true']
    rw [Bool.and_eq_false_iff]
    exact Or.inr hall

end Connors

namespace Connors

/-- Witness for C8: the empty symbol fails before any adapter exists. -/
theorem claim_C8_witness :
    (DownloadService.download_data createOk "/h" ⟨2024, 6, 15⟩ "polygon" ""
      (some "2024-01-01") (some "2024-02-01") "1d" none "csv" none none).success
      = false ∧
    DownloadService.download_data createOk "/h" ⟨2024, 6, 15⟩ "polygon" ""
      (some "2024-01-01") (some "2024-02-01") "1d" none "csv" none none =
    DownloadService.download_data createErr "/h" ⟨2024, 6, 15⟩ "polygon" ""
      (some "2024-01-01") (some "2024-02-01") "1d" none "csv" none none :=
  ⟨(claim_C8_bad_symbol_fails_before_adapter createOk createErr "/h" ⟨2024, 6, 15⟩
      "polygon" "" (some "2024-01-01") (some "2024-02-01") "1d" none "csv" none
      none (by decide)).1,
   (claim_C8_bad_symbol_fails_before_adapter createOk createErr "/h" ⟨2024, 6, 15⟩
      "polygon" "" (some "2024-01-01") (some "2024-02-01") "1d" none "csv" none
      none (by decide)).2.1⟩

/-- Witness for C9: the one-day range start = end = 2024-01-01 is
rejected with the date-order error before any adapter is built. -/
theorem claim_C9_witness :
    DownloadService.preview_download "/h" ⟨2024, 6, 15⟩ "polygon" "AAPL"
      (some "2024-01-01") (some "2024-01-01") "1d" none none =
      .invalid "Start date must be before end date" ∧
    DownloadService.download_data createOk "/h" ⟨2024, 6, 15⟩ "polygon" "AAPL"
      (some "2024-01-01") (some "2024-01-01") "1d" none "csv" none none =
      { ticker := "AAPL", datasource := "polygon", market := none, data := none,
        file_path := none, start_date := "2024-01-01", end_date := "2024-01-01",
        interval := "1d", success := false,
        error := some ("Download failed: " ++ "Start date must be before end date") } :=
  ⟨(claim_C9_start_before_end_required "/h" ⟨2024, 6, 15⟩ "polygon" "AAPL"
      "2024-01-01" "2024-01-01" "1d" "csv" none ⟨2024, 1, 1⟩ ⟨2024, 1, 1⟩
      (by decide) (by decide) (by decide) (by decide) (by decide)
      (Or.inl (by decide))).1,
   (claim_C9_start_before_end_required "/h" ⟨2024, 6, 15⟩ "polygon" "AAPL"
      "2024-01-01" "2024-01-01" "1d" "csv" none ⟨2024, 1, 1⟩ ⟨2024, 1, 1⟩
      (by decide) (by decide) (by decide) (by decide) (by decide)
      (Or.inl (by decide))).2 createOk⟩

/-- With passing validations and an in-order explicit date range, the
download reduces to adapter construction, fetch and the empty check. -/
theorem download_after_valid_preview
    (create : String → Option String → Except String Adapter)
    (appHome : String) (today : Date) (ds t s e i fmt : String)
    (ex : Option String) (sd ed : Date)
    (hds : ds ≠ "") (ht : (DownloadService.validate_ticker t).valid = true)
    (hs : parseDateStr s = some sd) (he : parseDateStr e = some ed)
    (hlt : toDays sd < toDays ed)
    (hfmt : lowerStr fmt = "csv" ∨ lowerStr fmt = "json") :
    DownloadService.download_data create appHome today ds t (some s) (some e) i
        none fmt none ex =
      DownloadService.to_download_result t ds none s e i
        (Except.bind (create ds ex) (fun ad =>
          Except.bind (ad t s e i) (fun df =>
            if df.rows.isEmpty then
              Except.error ("No data found for " ++ t ++ " in the specified date range")
            else
              Except.ok (df, DownloadService.get_output_path_with_format appHome t ds
                s e i none fmt ex false none)))) := by
  have hsne : s ≠ "" := by
    intro h0
    rw [h0] at hs
    rw [show parseDateStr "" = none from rfl] at hs
    exact Option.noConfusion hs
  have hene : e ≠ "" := by
    intro h0
    rw [h0] at he
    rw [show parseDateStr "" = none from rfl] at he
    exact Option.noConfusion he
  have hprev : DownloadService.preview_download appHome today ds t (some s)
      (some e) i none none =
      .valid { ticker := t, final_ticker := t, datasource := ds, start := s,
               stop := e, interval := i, market_info := none,
               output_path := DownloadService.get_output_path_with_format appHome
                 t ds s e i none "csv" none false none } := by
    rw [preview_explicit appHome today ds t s e i hds ht hsne hene]
    simp [hs, he, not_le.mpr hlt]
  unfold DownloadService.download_data DownloadService.download_body
  simp only [truthy, hsne, hene]
  rcases hfmt with hfmt | hfmt <;>
  · simp [hfmt, hprev, truthy, hsne, hene]
    rfl

end Connors

namespace Connors

/-- Both result shapes carry the resolved dates. -/
theorem to_download_result_dates (t ds : String) (mk : Option String)
    (s e i : String) (b : Except String (Frame × String)) :
    (DownloadService.to_download_result t ds mk s e i b).start_date = s ∧
    (DownloadService.to_download_result t ds mk s e i b).end_date = e := by
  rcases b with msg | ⟨df, path⟩ <;> exact ⟨rfl, rfl⟩

/-- C3 counterexample: an invalid timespan name does NOT yield a failed
result — the orchestrator swallows the resolver error, substitutes the
default date range and reports success. -/
theorem claim_C3_counterexample :
    (DownloadService.download_data createOk "/h" ⟨2024, 6, 15⟩ "yfinance" "AAPL"
      none none "1d" none "csv" (some "BOGUS") none).success = true ∧
    (DownloadService.download_data createOk "/h" ⟨2024, 6, 15⟩ "yfinance" "AAPL"
      none none "1d" none "csv" (some "BOGUS") none).error = none := by
  decide

/-- C3 (amended): exceptions raised by registry and adapter code are
caught and converted to a failed result whose error wraps the original
message, and a malformed explicit date pair is rejected in preview and
surfaces as a failed result; but anything the resolver raises during
date calculation — an invalid timespan name in particular — is
swallowed by the date-calculation fallback, which silently substitutes
the default one-year range and lets the download proceed. -/
theorem claim_C3_exception_conversion_amended :
    (∀ (create : String → Option String → Except String Adapter)
        (appHome : String) (today : Date) (ds t s e i fmt msg : String)
        (ex : Option String) (sd ed : Date),
      ds ≠ "" → (DownloadService.validate_ticker t).valid = true →
      parseDateStr s = some sd → parseDateStr e = some ed →
      toDays sd < toDays ed →
      lowerStr fmt = "csv" ∨ lowerStr fmt = "json" →
      create ds ex = .error msg →
      DownloadService.download_data create appHome today ds t (some s) (some e)
          i none fmt none ex =
        { ticker := t, datasource := ds, market := none, data := none,
          file_path := none, start_date := s, end_date := e, interval := i,
          success := false, error := some ("Download failed: " ++ msg) }) ∧
    (∀ (create : String → Option String → Except String Adapter) (ad : Adapter)
        (appHome : String) (today : Date) (ds t s e i fmt msg : String)
        (ex : Option String) (sd ed : Date),
      ds ≠ "" → (DownloadService.validate_ticker t).valid = true →
      parseDateStr s = some sd → parseDateStr e = some ed →
      toDays sd < toDays ed →
      lowerStr fmt = "csv" ∨ lowerStr fmt = "json" →
      create ds ex = .ok ad → ad t s e i = .error msg →
      DownloadService.download_data create appHome today ds t (some s) (some e)
          i none fmt none ex =
        { ticker := t, datasource := ds, market := none, data := none,
          file_path := none, start_date := s, end_date := e, interval := i,
          success := false, error := some ("Download failed: " ++ msg) }) ∧
    (∀ (create : String → Option String → Except String Adapter)
        (appHome : String) (today : Date) (ds t s e i fmt : String)
        (ex : Option String),
      ds ≠ "" → (DownloadService.validate_ticker t).valid = true →
      s ≠ "" → e ≠ "" →
      (parseDateStr s = none ∨ parseDateStr e = none) →
      lowerStr fmt = "csv" ∨ lowerStr fmt = "json" →
      DownloadService.preview_download appHome today ds t (some s) (some e) i
          none none = .invalid "Invalid date format (use YYYY-MM-DD)" ∧
      DownloadService.download_data create appHome today ds t (some s) (some e)
          i none fmt none ex =
        { ticker := t, datasource := ds, market := none, data := none,
          file_path := none, start_date := s, end_date := e, interval := i,
          success := false,
          error := some ("Download failed: " ++
            "Invalid date format (use YYYY-MM-DD)") }) ∧
    (∀ (create : String → Option String → Except String Adapter)
        (appHome : String) (today : Date) (ds t i fmt tf : String)
        (mk ex : Option String),
      tf ≠ "" →
      TimespanCalculator.PREDEFINED_TIMESPANS.find? (fun p => p.1 == tf) = none →
      (DownloadService.download_data create appHome today ds t none none i mk
          fmt (some tf) ex).start_date =
        (DownloadService.get_default_dates today).1 ∧
      (DownloadService.download_data create appHome today ds t none none i mk
          fmt (some tf) ex).end_date =
        (DownloadService.get_default_dates today).2) := by
  refine ⟨?_, ?_, ?_, ?_⟩
  · intro create appHome today ds t s e i fmt msg ex sd ed hds ht hs he hlt hfmt hcreate
    rw [download_after_valid_preview create appHome today ds t s e i fmt ex sd ed
      hds ht hs he hlt hfmt]
    rw [hcreate]
    exact to_download_result_error t ds none s e i msg
  · intro create ad appHome today ds t s e i fmt msg ex sd ed hds ht hs he hlt
      hfmt hcreate had
    rw [download_after_valid_preview create appHome today ds t s e i fmt ex sd ed
      hds ht hs he hlt hfmt]
    rw [hcreate]
    have hbind : Except.bind (Except.ok ad)
        (fun ad' => Except.bind (ad' t s e i) (fun df =>
          if df.rows.isEmpty then
            Except.error ("No data found for " ++ t ++ " in the specified date range")
          else
            Except.ok (df, DownloadService.get_output_path_with_format appHome t ds
              s e i none fmt ex false none))) = Except.error msg := by
      simp [Except.bind, had]
    rw [hbind]
    exact to_download_result_error t ds none s e i msg
  · intro create appHome today ds t s e i fmt ex hds ht hsne hene hbad hfmt
    have hprev : DownloadService.preview_download appHome today ds t (some s)
        (some e) i none none = .invalid "Invalid date format (use YYYY-MM-DD)" := by
      rw [preview_explicit appHome today ds t s e i hds ht hsne hene]
      rcases hbad with hb | hb
      · simp [hb]
      · cases hps : parseDateStr s <;> simp [hps, hb]
    refine ⟨hprev, ?_⟩
    unfold DownloadService.download_data DownloadService.download_body
      DownloadService.to_download_result
    simp only [truthy, hsne, hene]
    rcases hfmt with hfmt | hfmt <;>
      simp [hfmt, hprev, truthy, hsne, hene]
  · intro create appHome today ds t i fmt tf mk ex htf hfind
    have hdates : DownloadService.calculate_dates_from_timeframe today (some tf)
        none none = DownloadService.get_default_dates today := by
      unfold DownloadService.calculate_dates_from_timeframe
      have hcalc : TimespanCalculator.calculate_dates (some tf) none none none
          today = .error ("Invalid timespan " ++ sq ++ tf ++ sq ++
            ". Available options: " ++ TimespanCalculator.timespanKeys) := by
        simp [TimespanCalculator.calculate_dates, truthy, htf, hfind]
      rw [hcalc]
    unfold DownloadService.download_data
    simp only [truthy, hdates, Bool.and_self, Bool.not_false, Bool.or_true,
      if_true]
    constructor
    · exact (to_download_result_dates t ds mk _ _ i _).1
    · exact (to_download_result_dates t ds mk _ _ i _).2

/-- Witness for C3 (amended): a raising registry `create` is converted
into a failed result carrying its message. -/
theorem claim_C3_witness :
    DownloadService.download_data createErr "/h" ⟨2024, 6, 15⟩ "polygon" "AAPL"
      (some "2024-01-01") (some "2024-02-01") "1d" none "csv" none none =
      { ticker := "AAPL", datasource := "polygon", market := none, data := none,
        file_path := none, start_date := "2024-01-01", end_date := "2024-02-01",
        interval := "1d", success := false,
        error := some ("Download failed: " ++ "Polygon API key is required") } :=
  claim_C3_exception_conversion_amended.1 createErr "/h" ⟨2024, 6, 15⟩ "polygon"
    "AAPL" "2024-01-01" "2024-02-01" "1d" "csv" "Polygon API key is required"
    none ⟨2024, 1, 1⟩ ⟨2024, 2, 1⟩ (by decide) (by decide) (by decide) (by decide)
    (by decide) (Or.inl (by decide)) rfl

end Connors
